import Mathlib

/-!
Verification of the resilient inference gateway of `ai-solution`
(`src/services/geminiService.ts`, `src/services/chatService.ts`,
`src/App.tsx`).

The TypeScript code is shallowly embedded: JavaScript errors become a
`JsError` structure, promise-returning operations become functions into
`Except JsError α`, and the control flow of each gateway routine is
translated into an executable Lean function that additionally records a
trace of the observable events (operation invocations and sleeps), so
that statements such as "the operation is never invoked" or "the next
key is tried with no delay" can be expressed about the trace.
-/

namespace AiSolution

/-- A JavaScript error value as observed by the gateway: an optional
`message` string and an optional numeric `status` field (absent fields
model `undefined`). -/
structure JsError where
  message : Option String
  status : Option Nat
deriving Repr, DecidableEq

/-- Whether `pre` is a prefix of `l`. -/
def listStartsWith : List Char → List Char → Bool
  | _, [] => true
  | [], _ :: _ => false
  | c :: tl, p :: ptl => c == p && listStartsWith tl ptl

/-- Whether `needle` occurs as a contiguous sublist of `hay`. -/
def listContainsSub (hay needle : List Char) : Bool :=
  match hay with
  | [] => needle.isEmpty
  | _ :: tl => listStartsWith hay needle || listContainsSub tl needle

/-- JS `String.prototype.includes`: `s` contains `pat` as a substring. -/
def jsIncludes (s pat : String) : Bool :=
  listContainsSub s.data pat.data

/-- The whitespace characters JS `trim` removes (restricted to the ASCII
whitespace occurring in this code base's configuration values). -/
def isJsWhitespace (c : Char) : Bool :=
  c == ' ' || c == '\n' || c == '\t' || c == '\r'

/-- JS `String.prototype.trim` on the character list: drop whitespace
from both ends. -/
def trimChars (l : List Char) : List Char :=
  ((l.dropWhile isJsWhitespace).reverse.dropWhile isJsWhitespace).reverse

/-- JS `String.prototype.trim`. -/
def jsTrim (s : String) : String := ⟨trimChars s.data⟩

/-- JS `String.prototype.split` against a class of separator characters:
split into the (possibly empty) pieces between separator occurrences. -/
def splitCharsOn (p : Char → Bool) : List Char → List (List Char)
  | [] => [[]]
  | c :: rest =>
    if p c then [] :: splitCharsOn p rest
    else
      match splitCharsOn p rest with
      | [] => [[c]]
      | piece :: pieces => (c :: piece) :: pieces

/-- JS `s.split(sep)` for a single-character separator class. -/
def jsSplit (s : String) (p : Char → Bool) : List String :=
  (splitCharsOn p s.data).map fun cs => ⟨cs⟩

/-- JS `error?.message?.includes(pat)`: `false` when `message` is absent. -/
def msgIncludes (e : JsError) (pat : String) : Bool :=
  match e.message with
  | some m => jsIncludes m pat
  | none => false

/-- Quota-error classification of `geminiService.ts` line 79:
`error?.message?.includes('429') || error?.status === 429 ||
error?.message?.includes('RESOURCE_EXHAUSTED')`. -/
def isQuotaError (e : JsError) : Bool :=
  msgIncludes e "429" || e.status == some 429 || msgIncludes e "RESOURCE_EXHAUSTED"

/-- `getAllKeys` (`geminiService.ts` lines 10–13): a falsy key string
yields no keys; otherwise split on each comma or newline, trim each
entry, and drop empty entries. -/
def getAllKeys (keyString : Option String) : List String :=
  match keyString with
  | none => []
  | some s =>
    if s = "" then []
    else ((jsSplit s fun c => c == ',' || c == '\n').map jsTrim).filter
      fun k => k.length > 0

/-- The `ChatService` constructor's `openRouterKey` parsing
(`chatService.ts` lines 45–51): a falsy config value yields no keys;
otherwise split on commas only, trim each entry, drop empty entries. -/
def chatServiceOpenRouterKeys (openRouterKey : Option String) : List String :=
  match openRouterKey with
  | none => []
  | some s =>
    if s = "" then []
    else ((jsSplit s fun c => c == ',').map jsTrim).filter fun k => k.length > 0

instance {ε α : Type} [DecidableEq ε] [DecidableEq α] :
    DecidableEq (Except ε α) := fun a b =>
  match a, b with
  | .ok x, .ok y =>
    if h : x = y then .isTrue (by rw [h]) else .isFalse (by simp [h])
  | .error x, .error y =>
    if h : x = y then .isTrue (by rw [h]) else .isFalse (by simp [h])
  | .ok _, .error _ => .isFalse (by simp)
  | .error _, .ok _ => .isFalse (by simp)

/-- An observable event of a gateway run: the operation invoked with a
key (recording its outcome), or a sleep of `ms` milliseconds. -/
inductive Ev (α : Type) where
  | attempt (key : String) (res : Except JsError α)
  | wait (ms : Nat)
deriving Repr, DecidableEq

/-- The keys of the attempt events of a trace, in chronological order. -/
def attemptKeys {α : Type} (tr : List (Ev α)) : List String :=
  tr.filterMap fun
    | .attempt k _ => some k
    | .wait _ => none

/-- The errors of the failed attempts of a trace, in chronological order. -/
def attemptErrors {α : Type} (tr : List (Ev α)) : List JsError :=
  tr.filterMap fun
    | .attempt _ (.error e) => some e
    | _ => none

/-- Number of attempt events of a trace that used `key`. -/
def attemptsOn {α : Type} (key : String) (tr : List (Ev α)) : Nat :=
  (attemptKeys tr).count key

/-- Whether a trace contains a sleep event. -/
def hasWait {α : Type} : List (Ev α) → Bool
  | [] => false
  | .wait _ :: _ => true
  | .attempt _ _ :: tl => hasWait tl

/-- The inner loop of `withProviderRetry` (`geminiService.ts` lines
74–95) for one key.  `fuel` is the number of iterations of
`for (let i = 0; i < maxRetriesPerKey; i++)` still to run (so retries
remain for this key exactly when `fuel > 1` at the current attempt);
`multi` is `shuffledKeys.length > 1`; `ctr` numbers the invocations of
the operation globally.  Returns the trace of this key's attempts, the
next invocation counter, and `some` outcome for the key (a success
value, or the key's last error, which the outer loop keeps as
`lastError`), or `none` when the loop body never ran. -/
def runKey {α : Type} (fn : String → Nat → Except JsError α) (key : String)
    (multi : Bool) : Nat → Nat → List (Ev α) × Nat × Option (Except JsError α)
  | 0, ctr => ([], ctr, none)
  | fuel + 1, ctr =>
    match fn key ctr with
    | .ok v => ([.attempt key (.ok v)], ctr + 1, some (.ok v))
    | .error e =>
      if isQuotaError e && multi then
        -- break the retry loop: fast failover to the next key
        ([.attempt key (.error e)], ctr + 1, some (.error e))
      else if isQuotaError e && fuel != 0 then
        -- await delay(500); continue
        let r := runKey fn key multi fuel (ctr + 1)
        (.attempt key (.error e) :: .wait 500 :: r.1, r.2.1, r.2.2)
      else
        -- non-quota error or last retry for this key
        ([.attempt key (.error e)], ctr + 1, some (.error e))

/-- The outer loop of `withProviderRetry` (`geminiService.ts` lines
73–97): iterate over the shuffled keys, threading the invocation
counter and the `lastError` variable; after the loop, `throw lastError`
(`Except.error none` models throwing the still-undefined variable). -/
def runKeys {α : Type} (fn : String → Nat → Except JsError α) (multi : Bool)
    (maxRetriesPerKey : Nat) :
    List String → Nat → Option JsError → List (Ev α) × Except (Option JsError) α
  | [], _, lastError => ([], .error lastError)
  | key :: rest, ctr, lastError =>
    match runKey fn key multi maxRetriesPerKey ctr with
    | (tr, _, some (.ok v)) => (tr, .ok v)
    | (tr, ctr', some (.error e)) =>
      let r := runKeys fn multi maxRetriesPerKey rest ctr' (some e)
      (tr ++ r.1, r.2)
    | (tr, ctr', none) =>
      let r := runKeys fn multi maxRetriesPerKey rest ctr' lastError
      (tr ++ r.1, r.2)

/-- The `ConfigurationError` thrown by `withProviderRetry` when the
provider's pool is empty. -/
def noKeysError (provider : String) : JsError :=
  ⟨some ("No API keys available for provider: " ++ provider), none⟩

/-- `withProviderRetry` (`geminiService.ts` lines 60–98).  The parsed
pool comes from `keyString` (the provider's configured credential
string); `shuffled` is the outcome of `shuffleArray` on that pool (an
arbitrary permutation, universally quantified in the theorems);
`fn key i` is the result of the `i`-th invocation (globally) of the
supplied operation with `key`.  Returns the event trace and either the
success value or the thrown error (`none` for an `undefined`
`lastError`). -/
def withProviderRetry {α : Type} (provider : String) (keyString : Option String)
    (shuffled : List String) (fn : String → Nat → Except JsError α)
    (maxRetriesPerKey : Nat := 1) : List (Ev α) × Except (Option JsError) α :=
  let keys := getAllKeys keyString
  if keys.length = 0 then
    ([], .error (some (noKeysError provider)))
  else
    runKeys fn (decide (shuffled.length > 1)) maxRetriesPerKey shuffled 0 none

/-! ### The streaming chat service (`chatService.ts`) -/

/-- The error built by `makeRequest` for a 404 (`chatService.ts` line
132); the fresh `Error` carries no `status` field. -/
def notFoundError (model : String) : JsError :=
  ⟨some ("Model '" ++ model ++ "' not found on provider. Check availability."), none⟩

/-- `ChatService.makeRequest` (`chatService.ts` lines 113–140).  The raw
transport outcome for one request is either the list of chunk delta
contents or an error; on success only non-empty contents are yielded; a
404 is converted to a fresh "model not found" error (losing the status
code), a 401 is re-thrown unchanged (the `validKey` flag it sets is not
observable here), and any other error is re-thrown unchanged. -/
def makeRequest (model : String) (raw : Except JsError (List String)) :
    Except JsError (List String) :=
  match raw with
  | .ok chunks => .ok (chunks.filter fun c => c != "")
  | .error e =>
    if e.status == some 404 then .error (notFoundError model)
    else .error e

/-- The error thrown after the key loop when no error was recorded
(`chatService.ts` line 109). -/
def allKeysFailedError : JsError := ⟨some "All provider keys failed.", none⟩

/-- The OpenRouter key loop of `ChatService.streamChat`
(`chatService.ts` lines 92–109).  `fuel` counts the remaining
iterations of `for (let i = 0; i < this.openRouterKeys.length; i++)`,
`idx` is `currentOpenRouterIndex`, and `raw key` is the transport
outcome of a request with `key`.  Returns the trace of
(key, `makeRequest` outcome) pairs, the final cursor, and the overall
outcome. -/
def orLoop (keys : List String) (model : String)
    (raw : String → Except JsError (List String)) :
    Nat → Nat → Option JsError →
      List (String × Except JsError (List String)) × Nat × Except JsError (List String)
  | 0, idx, lastError => ([], idx, .error (lastError.getD allKeysFailedError))
  | fuel + 1, idx, _lastError =>
    match makeRequest model (raw (keys.getD (idx % keys.length) "")) with
    | .ok chunks => ([(keys.getD (idx % keys.length) "", .ok chunks)], idx, .ok chunks)
    | .error e =>
      if e.status == some 401 then
        -- this.rotateOpenRouterKey(); continue
        ((keys.getD (idx % keys.length) "", .error e)
            :: (orLoop keys model raw fuel ((idx + 1) % keys.length) (some e)).1,
          (orLoop keys model raw fuel ((idx + 1) % keys.length) (some e)).2.1,
          (orLoop keys model raw fuel ((idx + 1) % keys.length) (some e)).2.2)
      else
        -- throw error
        ([(keys.getD (idx % keys.length) "", .error e)], idx, .error e)

/-- The error thrown by `streamChat` when no OpenRouter key is
configured for a non-Groq request (`chatService.ts` line 87). -/
def requiresKeyError (mode : String) : JsError :=
  ⟨some ("Mode '" ++ mode ++ "' requires OpenRouter API Key. Please check your Settings."),
    none⟩

/-- The OpenRouter path of `ChatService.streamChat` (`chatService.ts`
lines 82–109): fail if no keys are configured, otherwise run the key
loop for `openRouterKeys.length` iterations starting at the current
round-robin cursor. -/
def streamChatOpenRouter (openRouterKeys : List String) (currentIndex : Nat)
    (model : String) (raw : String → Except JsError (List String)) (mode : String) :
    List (String × Except JsError (List String)) × Nat × Except JsError (List String) :=
  if openRouterKeys.length = 0 then
    ([], currentIndex, .error (requiresKeyError mode))
  else
    orLoop openRouterKeys model raw openRouterKeys.length currentIndex none

/-! ### The exam-analysis fallback chain (`geminiService.ts`) -/

/-- First Groq model tried by `analyzeWithGroq` (`geminiService.ts` line 197). -/
def groqModel1 : String := "meta-llama/llama-4-maverick-17b-128e-instruct"

/-- Fallback Groq model of `analyzeWithGroq` (`geminiService.ts` line 201). -/
def groqModel2 : String := "llama-3.2-90b-vision-preview"

/-- `analyzeWithGroq` (`geminiService.ts` lines 147–203): uses the single
configured Groq key string (falsy → fail); tries `groqModel1` with it,
then falls back to `groqModel2` with the same key.  The trace records
each `callGroq(apiKey, model)` invocation. -/
def analyzeWithGroq {α : Type} (groqKeyString : Option String)
    (callGroq : String → String → Except JsError α) :
    List (String × String) × Except JsError α :=
  match groqKeyString with
  | none => ([], .error ⟨some "No Groq API key available", none⟩)
  | some apiKey =>
    if apiKey = "" then ([], .error ⟨some "No Groq API key available", none⟩)
    else
      match callGroq apiKey groqModel1 with
      | .ok v => ([(apiKey, groqModel1)], .ok v)
      | .error _ =>
        match callGroq apiKey groqModel2 with
        | .ok v => ([(apiKey, groqModel1), (apiKey, groqModel2)], .ok v)
        | .error e => ([(apiKey, groqModel1), (apiKey, groqModel2)], .error e)

/-- The environment of one `analyzeExamPaper` call: the configured
credential strings, the shuffle outcomes for the pools (layers 1 and 2
each shuffle the Gemini pool independently), and the behavior of each
layer's underlying network operation. -/
structure ChainEnv (α : Type) where
  geminiKeyString : Option String
  orKeyString : Option String
  groqKeyString : Option String
  geminiShuffle1 : List String
  geminiShuffle2 : List String
  orShuffle : List String
  fn1 : String → Nat → Except JsError α
  fn2 : String → Nat → Except JsError α
  callGroq : String → String → Except JsError α
  fn4 : String → Nat → Except JsError α

/-- Layer 1 of `analyzeExamPaper` (`geminiService.ts` lines 271–297):
the primary Gemini model through `withProviderRetry('gemini', …)`. -/
def layer1 {α : Type} (env : ChainEnv α) : List (Ev α) × Except (Option JsError) α :=
  withProviderRetry "gemini" env.geminiKeyString env.geminiShuffle1 env.fn1 1

/-- Layer 2 of `analyzeExamPaper` (lines 299–313): the Gemini 2.0
fallback model through `withProviderRetry('gemini', …)`. -/
def layer2 {α : Type} (env : ChainEnv α) : List (Ev α) × Except (Option JsError) α :=
  withProviderRetry "gemini" env.geminiKeyString env.geminiShuffle2 env.fn2 1

/-- Layer 3 of `analyzeExamPaper` (lines 315–321): Groq vision via
`analyzeWithGroq`. -/
def layer3 {α : Type} (env : ChainEnv α) : List (String × String) × Except JsError α :=
  analyzeWithGroq env.groqKeyString env.callGroq

/-- Layer 4 of `analyzeExamPaper` (lines 323–330): OpenRouter vision via
`analyzeWithOpenRouter`, which wraps its request in
`withProviderRetry('openrouter', …)` (lines 205–247). -/
def layer4 {α : Type} (env : ChainEnv α) : List (Ev α) × Except (Option JsError) α :=
  withProviderRetry "openrouter" env.orKeyString env.orShuffle env.fn4 1

/-- The string JS interpolates for `e.message` of a thrown value
(`undefined` stringifies to `"undefined"`). -/
def thrownMessageStr : Option JsError → String
  | some e => e.message.getD "undefined"
  | none => "undefined"

/-- The terminal error of `analyzeExamPaper` (line 329), wrapping the
message of the layer-4 error. -/
def scanFailedError (e4 : Option JsError) : JsError :=
  ⟨some ("Scan failed after 4 types of fallback. Last error: " ++ thrownMessageStr e4),
    none⟩

/-- `analyzeExamPaper` (`geminiService.ts` lines 249–331): four nested
try/catch layers; the first successful layer's value is returned, and
if all four fail, a terminal error wrapping the fourth layer's error
message is thrown. -/
def analyzeExamPaper {α : Type} (env : ChainEnv α) : Except JsError α :=
  match (layer1 env).2 with
  | .ok v => .ok v
  | .error _ =>
    match (layer2 env).2 with
    | .ok v => .ok v
    | .error _ =>
      match (layer3 env).2 with
      | .ok v => .ok v
      | .error _ =>
        match (layer4 env).2 with
        | .ok v => .ok v
        | .error e4 => .error (scanFailedError e4)

/-! ### `refineAcademicAnswer` (`geminiService.ts` lines 333–396) -/

/-- The environment of one `refineAcademicAnswer` call. `callOpenRouter`
and `callGemini` take the API key, the model id, and the global
invocation counter of the enclosing `withProviderRetry` run. -/
structure RefineEnv where
  modelName : String
  provider : String
  orKeyString : Option String
  geminiKeyString : Option String
  orShuffle : List String
  geminiShuffle : List String
  callOpenRouter : String → String → Nat → Except JsError String
  callGemini : String → String → Nat → Except JsError String

/-- The OpenRouter model chosen by `refineAcademicAnswer` (line 381). -/
def refineOrModel (env : RefineEnv) : String :=
  if env.provider = "openrouter" then env.modelName else "google/gemini-2.0-flash-001"

/-- The Gemini model chosen by `refineAcademicAnswer` (line 390). -/
def refineGeminiModel (env : RefineEnv) : String :=
  if env.provider = "gemini" then env.modelName else "gemini-2.0-flash-exp"

/-- The OpenRouter attempt of `refineAcademicAnswer` (line 382):
`withProviderRetry('openrouter', key => callOpenRouter(key, orModel))`. -/
def refineOrRun (env : RefineEnv) : List (Ev String) × Except (Option JsError) String :=
  withProviderRetry "openrouter" env.orKeyString env.orShuffle
    (fun key i => env.callOpenRouter key (refineOrModel env) i) 1

/-- The Gemini fallback of `refineAcademicAnswer` (line 391):
`withProviderRetry('gemini', key => callGemini(key, geminiModel))`. -/
def refineGeminiRun (env : RefineEnv) : List (Ev String) × Except (Option JsError) String :=
  withProviderRetry "gemini" env.geminiKeyString env.geminiShuffle
    (fun key i => env.callGemini key (refineGeminiModel env) i) 1

/-- `refineAcademicAnswer`: if at least one OpenRouter key is
configured, try OpenRouter through `withProviderRetry` first and return
its value on success; on failure (or when no OpenRouter key exists)
fall back to Gemini through `withProviderRetry`, whose outcome —
success or error — is final.  The result pairs each invoked provider
with its event trace, in invocation order. -/
def refineAcademicAnswer (env : RefineEnv) :
    List (String × List (Ev String)) × Except (Option JsError) String :=
  let orKeys := getAllKeys env.orKeyString
  if orKeys.length > 0 then
    match refineOrRun env with
    | (tr, .ok v) => ([("openrouter", tr)], .ok v)
    | (tr, .error _) =>
      ([("openrouter", tr), ("gemini", (refineGeminiRun env).1)], (refineGeminiRun env).2)
  else
    ([("gemini", (refineGeminiRun env).1)], (refineGeminiRun env).2)

/-! ### Batch generation (`App.tsx` lines 229–272) -/

/-- The fields of an exam question relevant to `startGeneration`. -/
structure ExamQuestion where
  label : String
  text : String
  marks : Nat
  enabled : Bool
  isJustified : Bool
deriving Repr, DecidableEq

/-- A refined question as produced by `processQuestion` or the failure
placeholder; `parts` holds (type, content) pairs. -/
structure RefinedQuestion where
  label : String
  text : String
  marks : Nat
  refinedAnswer : String
  parts : List (String × String)
  isJustified : Bool
deriving Repr, DecidableEq

/-- The per-item failure placeholder built in the catch branch of the
batch map (`App.tsx` lines 251–258). -/
def failurePlaceholder (q : ExamQuestion) : RefinedQuestion where
  label := q.label
  text := q.text
  marks := q.marks
  refinedAnswer := "<div class=\"p-4 bg-red-50 border border-red-200 rounded-xl text-red-600 font-bold\">Generation failed for this specific question after all retry attempts.</div>"
  parts := [("text", "<b style=\"color:#ef4444\">Generation failed for this question.</b>")]
  isJustified := q.isJustified

/-- One item of a wave: `processQuestion(q)` on success, the failure
placeholder when it throws (`App.tsx` lines 245–260). -/
def resolveBatchItem (process : ExamQuestion → Except JsError RefinedQuestion)
    (q : ExamQuestion) : RefinedQuestion :=
  match process q with
  | .ok r => r
  | .error _ => failurePlaceholder q

/-- The waves of the batch loop `for (let i = 0; …; i += batchSize)`
with `batchSize = 3`: consecutive slices of at most three questions. -/
def batches3 {β : Type} : List β → List (List β)
  | [] => []
  | [a] => [[a]]
  | [a, b] => [[a, b]]
  | a :: b :: c :: rest => [a, b, c] :: batches3 rest

/-- `startGeneration` (`App.tsx` lines 229–272), restricted to the
computation of the result list: filter the enabled questions, process
them in waves of three, and concatenate the wave results in order. -/
def startGeneration (questions : List ExamQuestion)
    (process : ExamQuestion → Except JsError RefinedQuestion) : List RefinedQuestion :=
  let enabledQuestions := questions.filter fun q => q.enabled
  ((batches3 enabledQuestions).map fun batch => batch.map (resolveBatchItem process)).flatten

/-! ### `generateChatTitle` (`geminiService.ts` lines 423–447) -/

/-- JS `s || fallback` for strings: the fallback when `s` is empty. -/
def jsOr (s fallback : String) : String := if s = "" then fallback else s

/-- `generateChatTitle`: an empty message list yields `"New Chat"`
without any provider call; otherwise the provider is called through
`withProviderRetry`, each successful response contributing
`response.text?.trim() || "New Chat"` (`respond key i` returns the
optional `response.text`), and any error from the retry run is caught
and replaced by `"New Chat"`. -/
def generateChatTitle (messages : List (String × String)) (provider : String)
    (keyString : Option String) (shuffled : List String)
    (respond : String → Nat → Except JsError (Option String)) :
    List (Ev String) × String :=
  if messages.length = 0 then ([], "New Chat")
  else
    match withProviderRetry provider keyString shuffled
      (fun key i =>
        match respond key i with
        | .ok text => .ok (jsOr (match text with | some t => jsTrim t | none => "") "New Chat")
        | .error e => .error e) 1 with
    | (tr, .ok title) => (tr, title)
    | (tr, .error _) => (tr, "New Chat")

/-! ### Lemmas about the retry-policy execution model -/

theorem attemptKeys_append {α : Type} (a b : List (Ev α)) :
    attemptKeys (a ++ b) = attemptKeys a ++ attemptKeys b :=
  List.filterMap_append a b _

theorem attemptErrors_append {α : Type} (a b : List (Ev α)) :
    attemptErrors (a ++ b) = attemptErrors a ++ attemptErrors b :=
  List.filterMap_append a b _

theorem hasWait_append {α : Type} (a b : List (Ev α)) :
    hasWait (a ++ b) = (hasWait a || hasWait b) := by
  induction a with
  | nil => rfl
  | cons x tl ih => cases x <;> simp [hasWait, ih]

/-- With more than one key in the pool, the inner retry loop performs
exactly one attempt per key: every branch breaks out. -/
theorem runKey_multi {α : Type} (fn : String → Nat → Except JsError α) (key : String)
    (fuel ctr : Nat) :
    runKey fn key true (fuel + 1) ctr
      = ([.attempt key (fn key ctr)], ctr + 1, some (fn key ctr)) := by
  unfold runKey
  cases h : fn key ctr with
  | ok v => rfl
  | error e =>
    by_cases hq : isQuotaError e <;> simp [hq]

/-- The first event of a nonempty inner-loop run is the attempt with the
current invocation counter. -/
theorem runKey_first {α : Type} (fn : String → Nat → Except JsError α) (key : String)
    (multi : Bool) (fuel ctr : Nat) :
    ∃ tl, (runKey fn key multi (fuel + 1) ctr).1 = .attempt key (fn key ctr) :: tl := by
  unfold runKey
  cases h : fn key ctr with
  | ok v => exact ⟨[], rfl⟩
  | error e =>
    by_cases hq : isQuotaError e
    · by_cases hm : multi
      · subst hm; simp [hq]
      · simp only [Bool.not_eq_true] at hm
        subst hm
        by_cases hf : fuel = 0
        · subst hf; simp [hq]
        · simp [hq, hf]
    · simp [hq]

/-- All attempt events of the inner loop use its key, and there are at
most `fuel` of them. -/
theorem runKey_attemptKeys {α : Type} (fn : String → Nat → Except JsError α) (key : String)
    (multi : Bool) :
    ∀ fuel ctr, ∃ n, attemptKeys (runKey fn key multi fuel ctr).1 = List.replicate n key
      ∧ n ≤ fuel := by
  intro fuel
  induction fuel with
  | zero => intro ctr; exact ⟨0, rfl, Nat.le_refl 0⟩
  | succ f ih =>
    intro ctr
    unfold runKey
    cases h : fn key ctr with
    | ok v => exact ⟨1, rfl, by omega⟩
    | error e =>
      by_cases hq : isQuotaError e
      · by_cases hm : multi
        · subst hm
          exact ⟨1, by simp [hq, attemptKeys], by omega⟩
        · simp only [Bool.not_eq_true] at hm
          subst hm
          by_cases hf : f = 0
          · subst hf; exact ⟨1, by simp [hq, attemptKeys], by omega⟩
          · obtain ⟨n, hn, hle⟩ := ih (ctr + 1)
            refine ⟨n + 1, ?_, by omega⟩
            simp [hq, hf, attemptKeys] at hn ⊢
            simpa [List.replicate_succ] using hn
      · exact ⟨1, by simp [hq, attemptKeys], by omega⟩

/-- With more than one key, the inner loop never sleeps. -/
theorem runKey_hasWait_multi {α : Type} (fn : String → Nat → Except JsError α)
    (key : String) (fuel ctr : Nat) :
    hasWait (runKey fn key true fuel ctr).1 = false := by
  cases fuel with
  | zero => rfl
  | succ f => rw [runKey_multi]; rfl

/-- A success outcome of the inner loop is the value of one of the
operation invocations on its key. -/
theorem runKey_ok {α : Type} (fn : String → Nat → Except JsError α) (key : String)
    (multi : Bool) :
    ∀ fuel ctr v, (runKey fn key multi fuel ctr).2.2 = some (.ok v) →
      ∃ i, fn key i = .ok v := by
  intro fuel
  induction fuel with
  | zero => intro ctr v h; simp [runKey] at h
  | succ f ih =>
    intro ctr v h
    unfold runKey at h
    cases hfn : fn key ctr with
    | ok w =>
      rw [hfn] at h
      simp at h
      exact ⟨ctr, by rw [hfn, h]⟩
    | error e =>
      rw [hfn] at h
      by_cases hq : isQuotaError e
      · by_cases hm : multi
        · subst hm; simp [hq] at h
        · simp only [Bool.not_eq_true] at hm
          subst hm
          by_cases hf : f = 0
          · subst hf; simp [hq] at h
          · simp [hq, hf] at h
            exact ih (ctr + 1) v h
      · simp [hq] at h

/-- When the operation fails on every invocation, the inner loop ends
with the error of its chronologically last attempt. -/
theorem runKey_fail {α : Type} (fn : String → Nat → Except JsError α) (key : String)
    (multi : Bool) (hfail : ∀ i, ∃ e, fn key i = .error e) :
    ∀ fuel ctr, 1 ≤ fuel →
      ∃ tr ctr' e, runKey fn key multi fuel ctr = (tr, ctr', some (.error e))
        ∧ (attemptErrors tr).getLast? = some e := by
  intro fuel
  induction fuel with
  | zero => intro ctr h; omega
  | succ f ih =>
    intro ctr _
    obtain ⟨e, he⟩ := hfail ctr
    by_cases hq : isQuotaError e
    · by_cases hm : multi
      · subst hm
        exact ⟨[.attempt key (.error e)], ctr + 1, e, by simp [runKey, he, hq], rfl⟩
      · simp only [Bool.not_eq_true] at hm
        subst hm
        by_cases hf : f = 0
        · subst hf
          exact ⟨[.attempt key (.error e)], ctr + 1, e, by simp [runKey, he, hq], rfl⟩
        · obtain ⟨tr', ctr', e', hrun, hlast⟩ := ih (ctr + 1) (by omega)
          refine ⟨.attempt key (.error e) :: .wait 500 :: tr', ctr', e', ?_, ?_⟩
          · simp [runKey, he, hq, hf, hrun]
          · show (attemptErrors (.attempt key (.error e) :: .wait 500 :: tr')).getLast?
              = some e'
            have : attemptErrors (Ev.attempt key (Except.error e) :: .wait 500 :: tr')
                = e :: attemptErrors tr' := by
              simp [attemptErrors]
            rw [this]
            exact List.mem_getLast?_cons (Option.mem_def.mpr hlast)
    · exact ⟨[.attempt key (.error e)], ctr + 1, e, by simp [runKey, he, hq], rfl⟩

/-- A key receives at most `maxRetriesPerKey` attempts per occurrence in
the key list. -/
theorem runKeys_count {α : Type} (fn : String → Nat → Except JsError α) (multi : Bool)
    (maxR : Nat) :
    ∀ (ks : List String) (ctr : Nat) (lastError : Option JsError) (k : String),
      attemptsOn k (runKeys fn multi maxR ks ctr lastError).1 ≤ maxR * ks.count k := by
  intro ks
  induction ks with
  | nil => intro ctr lastError k; simp [runKeys, attemptsOn, attemptKeys]
  | cons k' rest ih =>
    intro ctr lastError k
    obtain ⟨n, hn, hle⟩ := runKey_attemptKeys fn k' multi maxR ctr
    have hcnt : ∀ tr, (runKey fn k' multi maxR ctr).1 = tr →
        attemptsOn k tr = if k = k' then n else 0 := by
      intro tr htr
      rw [← htr]
      unfold attemptsOn
      rw [hn, List.count_replicate]
      by_cases hk : k = k'
      · simp [hk]
      · simp only [hk, if_false]
        simp only [beq_iff_eq]
        rw [if_neg (fun h => absurd h.symm hk)]
    rcases hrk : runKey fn k' multi maxR ctr with ⟨tr, ctr2, res⟩
    have htr := hcnt tr (by rw [hrk])
    have hcount_cons : (k' :: rest).count k = rest.count k + (if k = k' then 1 else 0) := by
      rw [List.count_cons]
      by_cases hk : k = k'
      · simp [hk]
      · simp only [hk, if_false]
        have : ¬(k' == k) = true := by
          simp only [beq_iff_eq]
          intro h; exact absurd h.symm hk
        simp [this]
    match res with
    | some (.ok v) =>
      simp only [runKeys, hrk]
      rw [hcount_cons, htr]
      by_cases hk : k = k'
      · rw [if_pos hk, if_pos hk, Nat.mul_add, Nat.mul_one]
        have := Nat.zero_le (maxR * rest.count k)
        linarith
      · rw [if_neg hk, if_neg hk]
        exact Nat.zero_le _
    | some (.error e) =>
      simp only [runKeys, hrk]
      unfold attemptsOn at htr ⊢
      rw [attemptKeys_append, List.count_append, hcount_cons, htr]
      have hrest := ih ctr2 (some e) k
      unfold attemptsOn at hrest
      by_cases hk : k = k'
      · rw [if_pos hk, if_pos hk, Nat.mul_add, Nat.mul_one]
        linarith
      · rw [if_neg hk, if_neg hk]
        simpa using hrest
    | none =>
      simp only [runKeys, hrk]
      unfold attemptsOn at htr ⊢
      rw [attemptKeys_append, List.count_append, hcount_cons, htr]
      have hrest := ih ctr2 lastError k
      unfold attemptsOn at hrest
      by_cases hk : k = k'
      · rw [if_pos hk, if_pos hk, Nat.mul_add, Nat.mul_one]
        linarith
      · rw [if_neg hk, if_neg hk]
        simpa using hrest

/-- With more than one key in the pool, no attempt is ever followed by a
sleep: the run contains no wait event at all. -/
theorem runKeys_hasWait {α : Type} (fn : String → Nat → Except JsError α) (maxR : Nat) :
    ∀ (ks : List String) (ctr : Nat) (lastError : Option JsError),
      hasWait (runKeys fn true maxR ks ctr lastError).1 = false := by
  intro ks
  induction ks with
  | nil => intro ctr lastError; rfl
  | cons k' rest ih =>
    intro ctr lastError
    have hk := runKey_hasWait_multi fn k' maxR ctr
    rcases hrk : runKey fn k' true maxR ctr with ⟨tr, ctr2, res⟩
    rw [hrk] at hk
    match res with
    | some (.ok v) => simp only [runKeys, hrk]; exact hk
    | some (.error e) =>
      simp only [runKeys, hrk]
      rw [hasWait_append, hk, ih ctr2 (some e)]
      rfl
    | none =>
      simp only [runKeys, hrk]
      rw [hasWait_append, hk, ih ctr2 lastError]
      rfl

/-- A success outcome of a run originates from an invocation of the
operation on one of the listed keys. -/
theorem runKeys_ok {α : Type} (fn : String → Nat → Except JsError α) (multi : Bool)
    (maxR : Nat) :
    ∀ (ks : List String) (ctr : Nat) (lastError : Option JsError) (v : α),
      (runKeys fn multi maxR ks ctr lastError).2 = .ok v →
      ∃ k ∈ ks, ∃ i, fn k i = .ok v := by
  intro ks
  induction ks with
  | nil => intro ctr lastError v h; simp [runKeys] at h
  | cons k' rest ih =>
    intro ctr lastError v h
    rcases hrk : runKey fn k' multi maxR ctr with ⟨tr, ctr2, res⟩
    match res with
    | some (.ok w) =>
      simp only [runKeys, hrk] at h
      cases h
      have : (runKey fn k' multi maxR ctr).2.2 = some (.ok v) := by rw [hrk]
      obtain ⟨i, hi⟩ := runKey_ok fn k' multi maxR ctr v this
      exact ⟨k', by simp, i, hi⟩
    | some (.error e) =>
      simp only [runKeys, hrk] at h
      obtain ⟨k, hk, i, hi⟩ := ih ctr2 (some e) v h
      exact ⟨k, by simp [hk], i, hi⟩
    | none =>
      simp only [runKeys, hrk] at h
      obtain ⟨k, hk, i, hi⟩ := ih ctr2 lastError v h
      exact ⟨k, by simp [hk], i, hi⟩

/-- When the operation fails on every invocation, every listed key is
attempted at least once (provided the retry budget is at least one). -/
theorem runKeys_mem_attempt {α : Type} (fn : String → Nat → Except JsError α)
    (multi : Bool) (maxR : Nat) (hmax : 1 ≤ maxR)
    (hfail : ∀ k i, ∃ e, fn k i = .error e) :
    ∀ (ks : List String) (ctr : Nat) (lastError : Option JsError) (k : String),
      k ∈ ks → k ∈ attemptKeys (runKeys fn multi maxR ks ctr lastError).1 := by
  intro ks
  induction ks with
  | nil => intro ctr lastError k h; simp at h
  | cons k' rest ih =>
    intro ctr lastError k hk
    obtain ⟨tr, ctr2, e, hrk, _⟩ := runKey_fail fn k' multi (hfail k') maxR ctr hmax
    have hk'mem : k' ∈ attemptKeys tr := by
      obtain ⟨m, hm⟩ := Nat.exists_eq_add_of_le hmax
      obtain ⟨tl, htl⟩ := runKey_first fn k' multi m ctr
      rw [hm, Nat.add_comm] at hrk
      rw [hrk] at htl
      simp only at htl
      rw [htl]
      simp [attemptKeys]
    simp only [runKeys, hrk]
    rcases List.mem_cons.mp hk with rfl | hmem
    · rw [attemptKeys_append]
      exact List.mem_append_left _ hk'mem
    · rw [attemptKeys_append]
      exact List.mem_append_right _ (ih ctr2 (some e) k hmem)

/-- When the operation fails on every invocation, the run fails with the
error of the chronologically last attempt (the `lastError` variable). -/
theorem runKeys_fail_last {α : Type} (fn : String → Nat → Except JsError α)
    (multi : Bool) (maxR : Nat) (hmax : 1 ≤ maxR)
    (hfail : ∀ k i, ∃ e, fn k i = .error e) :
    ∀ (ks : List String) (ctr : Nat) (lastError : Option JsError), ks ≠ [] →
      ∃ e, (runKeys fn multi maxR ks ctr lastError).2 = .error (some e)
        ∧ (attemptErrors (runKeys fn multi maxR ks ctr lastError).1).getLast? = some e := by
  intro ks
  induction ks with
  | nil => intro _ _ h; exact absurd rfl h
  | cons k' rest ih =>
    intro ctr lastError _
    obtain ⟨tr, ctr2, e, hrk, hlast⟩ := runKey_fail fn k' multi (hfail k') maxR ctr hmax
    by_cases hrest : rest = []
    · subst hrest
      refine ⟨e, ?_, ?_⟩
      · simp [runKeys, hrk]
      · simp only [runKeys, hrk]
        rw [attemptErrors_append]
        simpa [runKeys, attemptErrors] using hlast
    · obtain ⟨e', h1, h2⟩ := ih ctr2 (some e) hrest
      refine ⟨e', ?_, ?_⟩
      · simp [runKeys, hrk, h1]
      · simp only [runKeys, hrk]
        rw [attemptErrors_append]
        have hne : attemptErrors (runKeys fn multi maxR rest ctr2 (some e)).1 ≠ [] := by
          intro hnil; rw [hnil] at h2; simp at h2
        rw [List.getLast?_append_of_ne_nil _ hne]
        exact h2

/-- If every key either always fails with a quota error or always
succeeds, and at least one key always succeeds, the run returns the
value of an invocation on one of the always-succeeding keys. -/
theorem runKeys_success {α : Type} (fn : String → Nat → Except JsError α) (multi : Bool)
    (maxR : Nat) (hmax : 1 ≤ maxR) :
    ∀ (ks : List String) (ctr : Nat) (lastError : Option JsError),
      (∀ k ∈ ks, (∀ i, ∃ e, fn k i = .error e ∧ isQuotaError e = true)
        ∨ (∀ i, ∃ v, fn k i = .ok v)) →
      (∃ k ∈ ks, ∀ i, ∃ v, fn k i = .ok v) →
      ∃ k ∈ ks, (∀ i, ∃ v, fn k i = .ok v)
        ∧ ∃ i v, fn k i = .ok v ∧ (runKeys fn multi maxR ks ctr lastError).2 = .ok v := by
  intro ks
  induction ks with
  | nil => intro _ _ _ hex; simp at hex
  | cons k' rest ih =>
    intro ctr lastError hall hex
    rcases hall k' (by simp) with hbad | hgood
    · -- the head key always quota-fails: the run moves on to the rest
      have hfailhead : ∀ i, ∃ e, fn k' i = .error e := fun i => ⟨(hbad i).choose,
        (hbad i).choose_spec.1⟩
      obtain ⟨tr, ctr2, e, hrk, _⟩ := runKey_fail fn k' multi hfailhead maxR ctr hmax
      have hex' : ∃ k ∈ rest, ∀ i, ∃ v, fn k i = .ok v := by
        obtain ⟨k, hkmem, hk⟩ := hex
        rcases List.mem_cons.mp hkmem with rfl | hmem
        · obtain ⟨e₀, he₀, _⟩ := hbad 0
          obtain ⟨v₀, hv₀⟩ := hk 0
          rw [hv₀] at he₀; cases he₀
        · exact ⟨k, hmem, hk⟩
      have hall' : ∀ k ∈ rest, (∀ i, ∃ e, fn k i = .error e ∧ isQuotaError e = true)
          ∨ (∀ i, ∃ v, fn k i = .ok v) := fun k hk => hall k (by simp [hk])
      obtain ⟨k, hkmem, hk, i, v, hv, hres⟩ := ih ctr2 (some e) hall' hex'
      exact ⟨k, by simp [hkmem], hk, i, v, hv, by simp [runKeys, hrk, hres]⟩
    · -- the head key succeeds on its first attempt
      obtain ⟨m, hm⟩ := Nat.exists_eq_add_of_le hmax
      obtain ⟨v, hv⟩ := hgood ctr
      have hrk : (runKey fn k' multi maxR ctr).2.2 = some (.ok v) := by
        rw [hm, Nat.add_comm]
        unfold runKey
        rw [hv]
      rcases hrk' : runKey fn k' multi maxR ctr with ⟨tr, ctr2, res⟩
      rw [hrk'] at hrk
      simp only at hrk
      subst hrk
      exact ⟨k', by simp, hgood, ctr, v, hv, by simp [runKeys, hrk']⟩

/-- With a nonempty parsed pool, `withProviderRetry` is the key loop on
the shuffled pool. -/
theorem withProviderRetry_run {α : Type} (provider : String) (keyString : Option String)
    (shuffled : List String) (fn : String → Nat → Except JsError α) (maxR : Nat)
    (hne : getAllKeys keyString ≠ []) :
    withProviderRetry provider keyString shuffled fn maxR
      = runKeys fn (decide (shuffled.length > 1)) maxR shuffled 0 none := by
  unfold withProviderRetry
  rw [if_neg]
  intro h
  exact hne (List.length_eq_zero.mp h)

/-! ### The claims -/

/-- C1: for every provider whose key pool parses to zero credentials,
`withProviderRetry` throws the error naming the provider, with an empty
event trace — the supplied operation is never invoked, so no network
I/O can have happened. -/
theorem claim_C1_empty_pool_fails_fast {α : Type} (provider : String)
    (keyString : Option String) (shuffled : List String)
    (fn : String → Nat → Except JsError α) (maxRetriesPerKey : Nat)
    (h : getAllKeys keyString = []) :
    withProviderRetry provider keyString shuffled fn maxRetriesPerKey
      = ([], .error (some ⟨some ("No API keys available for provider: " ++ provider),
          none⟩)) := by
  unfold withProviderRetry
  rw [h]
  rfl

/-- Witness for C1: a whitespace-only OpenRouter key string parses to
zero credentials and the call fails fast with the provider-naming
error. -/
theorem claim_C1_empty_pool_fails_fast_witness :
    getAllKeys (some " ,\n ") = [] ∧
    withProviderRetry (α := Nat) "openrouter" (some " ,\n ") [] (fun _ i => .ok i) 1
      = ([], .error (some ⟨some ("No API keys available for provider: " ++ "openrouter"),
          none⟩)) :=
  ⟨rfl, claim_C1_empty_pool_fails_fast "openrouter" (some " ,\n ") [] (fun _ i => .ok i) 1 rfl⟩

/-- C3: for every nonempty key pool and every operation failing on every
attempt, `withProviderRetry` throws the error observed on the
chronologically last attempt of its trace. -/
theorem claim_C3_last_observed_error {α : Type} (provider : String)
    (keyString : Option String) (shuffled : List String)
    (fn : String → Nat → Except JsError α) (maxRetriesPerKey : Nat)
    (hperm : shuffled.Perm (getAllKeys keyString)) (hne : getAllKeys keyString ≠ [])
    (hmax : 1 ≤ maxRetriesPerKey) (hfail : ∀ k i, ∃ e, fn k i = .error e) :
    ∃ e, (withProviderRetry provider keyString shuffled fn maxRetriesPerKey).2
        = .error (some e)
      ∧ (attemptErrors
          (withProviderRetry provider keyString shuffled fn maxRetriesPerKey).1).getLast?
        = some e := by
  have hsh : shuffled ≠ [] := by
    intro h
    subst h
    exact hne hperm.symm.eq_nil
  rw [withProviderRetry_run provider keyString shuffled fn maxRetriesPerKey hne]
  exact runKeys_fail_last fn _ maxRetriesPerKey hmax hfail shuffled 0 none hsh

/-- An always-failing operation whose error message records the key, to
exhibit which attempt's error is thrown. -/
def c3fn : String → Nat → Except JsError Nat :=
  fun k _ => .error ⟨some ("fail-" ++ k), none⟩

/-- Witness for C3: a two-key pool shuffled to `["k2","k1"]` with
per-key error messages; the thrown error is the one of the last
attempt. -/
theorem claim_C3_last_observed_error_witness :
    ∃ e, (withProviderRetry "gemini" (some "k1,k2") ["k2", "k1"] c3fn 1).2
        = .error (some e)
      ∧ (attemptErrors
          (withProviderRetry "gemini" (some "k1,k2") ["k2", "k1"] c3fn 1).1).getLast?
        = some e :=
  claim_C3_last_observed_error "gemini" (some "k1,k2") ["k2", "k1"] c3fn 1
    (by rw [show getAllKeys (some "k1,k2") = ["k1", "k2"] from rfl]; decide)
    (by rw [show getAllKeys (some "k1,k2") = ["k1", "k2"] from rfl]; simp)
    (by omega)
    (fun k i => ⟨⟨some ("fail-" ++ k), none⟩, rfl⟩)

/-- C2: the retry policy (1) invokes the operation on any given key at
most `maxRetriesPerKey` times; (2) with more than one key it never
sleeps; (3) a quota failure with further keys available ends that key's
attempts and continues with the next key at once; (4) with a single key
and remaining budget, a quota failure is followed by a 500 ms sleep and
a retry of the same key; (5) if exactly the keys of a subset always
quota-fail and the rest always succeed, the run returns the value of an
invocation on an always-succeeding key. -/
theorem claim_C2_retry_policy {α : Type} (provider : String) (keyString : Option String)
    (shuffled : List String) (fn : String → Nat → Except JsError α)
    (maxRetriesPerKey : Nat) (hperm : shuffled.Perm (getAllKeys keyString))
    (hne : getAllKeys keyString ≠ []) (hmax : 1 ≤ maxRetriesPerKey) :
    (shuffled.Nodup → ∀ k,
      attemptsOn k (withProviderRetry provider keyString shuffled fn maxRetriesPerKey).1
        ≤ maxRetriesPerKey) ∧
    (1 < shuffled.length →
      hasWait (withProviderRetry provider keyString shuffled fn maxRetriesPerKey).1
        = false) ∧
    (∀ k ks e, shuffled = k :: ks → ks ≠ [] → fn k 0 = .error e →
      isQuotaError e = true →
      withProviderRetry provider keyString shuffled fn maxRetriesPerKey
        = (.attempt k (.error e) :: (runKeys fn true maxRetriesPerKey ks 1 (some e)).1,
           (runKeys fn true maxRetriesPerKey ks 1 (some e)).2)) ∧
    (∀ k e, shuffled = [k] → 2 ≤ maxRetriesPerKey → fn k 0 = .error e →
      isQuotaError e = true →
      ∃ tl, (withProviderRetry provider keyString shuffled fn maxRetriesPerKey).1
        = .attempt k (.error e) :: .wait 500 :: .attempt k (fn k 1) :: tl) ∧
    ((∀ k ∈ shuffled, (∀ i, ∃ e, fn k i = .error e ∧ isQuotaError e = true)
        ∨ (∀ i, ∃ v, fn k i = .ok v)) →
      (∃ k ∈ shuffled, ∀ i, ∃ v, fn k i = .ok v) →
      ∃ k ∈ shuffled, (∀ i, ∃ v, fn k i = .ok v) ∧ ∃ i v, fn k i = .ok v ∧
        (withProviderRetry provider keyString shuffled fn maxRetriesPerKey).2
          = .ok v) := by
  have hrun := withProviderRetry_run provider keyString shuffled fn maxRetriesPerKey hne
  refine ⟨?_, ?_, ?_, ?_, ?_⟩
  · -- (1) per-key attempt bound
    intro hnodup k
    rw [hrun]
    have hb := runKeys_count fn (decide (shuffled.length > 1)) maxRetriesPerKey
      shuffled 0 none k
    have hc : shuffled.count k ≤ 1 := List.nodup_iff_count_le_one.mp hnodup k
    calc attemptsOn k (runKeys fn (decide (shuffled.length > 1)) maxRetriesPerKey
          shuffled 0 none).1
        ≤ maxRetriesPerKey * shuffled.count k := hb
      _ ≤ maxRetriesPerKey * 1 := Nat.mul_le_mul_left _ hc
      _ = maxRetriesPerKey := Nat.mul_one _
  · -- (2) no sleeps with more than one key
    intro hlen
    rw [hrun, decide_eq_true hlen]
    exact runKeys_hasWait fn maxRetriesPerKey shuffled 0 none
  · -- (3) fast failover on quota error
    intro k ks e hsh hks hfn hq
    subst hsh
    have hlen : 1 < (k :: ks).length := by
      cases ks with
      | nil => exact absurd rfl hks
      | cons a tl => simp [List.length_cons]
    obtain ⟨m, rfl⟩ : ∃ m, maxRetriesPerKey = m + 1 :=
      ⟨maxRetriesPerKey - 1, by omega⟩
    rw [hrun, decide_eq_true hlen]
    have hrk := runKey_multi fn k m 0
    rw [hfn] at hrk
    simp [runKeys, hrk]
  · -- (4) single key: 500 ms sleep then the same key again
    intro k e hsh hbudget hfn hq
    subst hsh
    obtain ⟨m, rfl⟩ : ∃ m, maxRetriesPerKey = m + 2 :=
      ⟨maxRetriesPerKey - 2, by omega⟩
    obtain ⟨tl, htl⟩ := runKey_first fn k false m 1
    have htr : (runKey fn k false (m + 2) 0).1
        = .attempt k (.error e) :: .wait 500 :: .attempt k (fn k 1) :: tl := by
      show (runKey fn k false (m + 1 + 1) 0).1 = _
      unfold runKey
      rw [hfn]
      simp [hq]
      exact htl
    rw [hrun]
    have hd : decide (([k] : List String).length > 1) = false := rfl
    rw [hd]
    rcases hres : runKey fn k false (m + 2) 0 with ⟨tr, ctr2, res⟩
    rw [hres] at htr
    simp only at htr
    subst htr
    match res with
    | some (.ok v) => exact ⟨tl, by simp [runKeys, hres]⟩
    | some (.error e') => exact ⟨tl, by simp [runKeys, hres]⟩
    | none => exact ⟨tl, by simp [runKeys, hres]⟩
  · -- (5) success through an always-succeeding key
    intro hall hex
    rw [hrun]
    exact runKeys_success fn (decide (shuffled.length > 1)) maxRetriesPerKey hmax
      shuffled 0 none hall hex

/-- A two-key behavior: `k1` always quota-fails (HTTP 429), `k2` always
succeeds. -/
def c2fn : String → Nat → Except JsError Nat :=
  fun k _ => if k = "k2" then .ok 7 else .error ⟨some "429", none⟩

/-- Witness for C2: a pool of two keys of which `k1` always quota-fails;
the run performs at most one attempt per key, never sleeps, and
succeeds with the value of the always-succeeding key `k2`. -/
theorem claim_C2_retry_policy_witness :
    (attemptsOn "k1" (withProviderRetry "gemini" (some "k1,k2") ["k1", "k2"] c2fn 1).1 ≤ 1
      ∧ attemptsOn "k2" (withProviderRetry "gemini" (some "k1,k2") ["k1", "k2"] c2fn 1).1 ≤ 1)
    ∧ hasWait (withProviderRetry "gemini" (some "k1,k2") ["k1", "k2"] c2fn 1).1 = false
    ∧ (∃ k ∈ ["k1", "k2"], (∀ i, ∃ v, c2fn k i = .ok v) ∧ ∃ i v, c2fn k i = .ok v ∧
        (withProviderRetry "gemini" (some "k1,k2") ["k1", "k2"] c2fn 1).2 = .ok v) := by
  obtain ⟨h1, h2, _, _, h5⟩ := claim_C2_retry_policy "gemini" (some "k1,k2")
    ["k1", "k2"] c2fn 1
    (by rw [show getAllKeys (some "k1,k2") = ["k1", "k2"] from rfl])
    (by rw [show getAllKeys (some "k1,k2") = ["k1", "k2"] from rfl]; simp)
    (by omega)
  refine ⟨⟨h1 (by decide) "k1", h1 (by decide) "k2"⟩, h2 (by decide), h5 ?_ ?_⟩
  · intro k hk
    rcases List.mem_cons.mp hk with rfl | hk
    · exact Or.inl fun i => ⟨⟨some "429", none⟩, rfl, rfl⟩
    · rcases List.mem_cons.mp hk with rfl | hk
      · exact Or.inr fun i => ⟨7, rfl⟩
      · simp at hk
  · exact ⟨"k2", by decide, fun i => ⟨7, rfl⟩⟩

/-- C4 counterexample: the ChatService constructor splits its
`openRouterKey` only on commas, so the newline-delimited string
`"a\nb"` parses to the single entry `"a\nb"` there, not to
`["a", "b"]` as comma-and-newline splitting (and `getAllKeys`) would
give — the claimed parsing does not hold for every credential parser at
the public interface. -/
theorem claim_C4_parsing_counterexample :
    chatServiceOpenRouterKeys (some "a\nb") = ["a\nb"]
    ∧ getAllKeys (some "a\nb") = ["a", "b"]
    ∧ chatServiceOpenRouterKeys (some "a\nb") ≠ ["a", "b"] := by
  refine ⟨rfl, rfl, ?_⟩
  decide

/-- C4 (amended): `getAllKeys` splits on commas and newlines, trims and
drops empties, parsing `"a, b,\nc"` to `["a","b","c"]` and an absent,
empty or whitespace-only string to `[]`; the ChatService constructor's
`openRouterKey` parsing splits on commas only (a lone newline does not
separate entries) but trims and drops empties likewise, so it agrees on
the quoted example and on absent/empty/whitespace-only strings; both
parsers produce only non-empty entries. -/
theorem claim_C4_credential_parsing :
    getAllKeys (some "a, b,\nc") = ["a", "b", "c"]
    ∧ getAllKeys none = [] ∧ getAllKeys (some "") = []
    ∧ getAllKeys (some " \n ") = []
    ∧ chatServiceOpenRouterKeys (some "a, b,\nc") = ["a", "b", "c"]
    ∧ chatServiceOpenRouterKeys none = [] ∧ chatServiceOpenRouterKeys (some "") = []
    ∧ chatServiceOpenRouterKeys (some "   ") = []
    ∧ chatServiceOpenRouterKeys (some "a\nb") = ["a\nb"]
    ∧ (∀ s k, k ∈ getAllKeys s → k ≠ "")
    ∧ (∀ s k, k ∈ chatServiceOpenRouterKeys s → k ≠ "") := by
  refine ⟨rfl, rfl, rfl, rfl, rfl, rfl, rfl, rfl, rfl, ?_, ?_⟩
  · intro s k hk
    match s with
    | none => simp [getAllKeys] at hk
    | some str =>
      by_cases hs : str = ""
      · simp [getAllKeys, hs] at hk
      · simp only [getAllKeys, if_neg hs] at hk
        have := (List.mem_filter.mp hk).2
        intro hempty
        subst hempty
        simp at this
  · intro s k hk
    match s with
    | none => simp [chatServiceOpenRouterKeys] at hk
    | some str =>
      by_cases hs : str = ""
      · simp [chatServiceOpenRouterKeys, hs] at hk
      · simp only [chatServiceOpenRouterKeys, if_neg hs] at hk
        have := (List.mem_filter.mp hk).2
        intro hempty
        subst hempty
        simp at this

/-- Witness for C4 (amended): the general no-empty-entry clauses applied
at a concrete configuration string. -/
theorem claim_C4_credential_parsing_witness :
    ("x" ∈ getAllKeys (some "x,y") ∧ ("x" : String) ≠ "")
    ∧ ("x" ∈ chatServiceOpenRouterKeys (some "x,y") ∧ ("x" : String) ≠ "") := by
  obtain ⟨_, _, _, _, _, _, _, _, _, h10, h11⟩ := claim_C4_credential_parsing
  refine ⟨⟨?_, h10 (some "x,y") "x" ?_⟩, ⟨?_, h11 (some "x,y") "x" ?_⟩⟩ <;> decide

/-- C5: when all four layers of `analyzeExamPaper` fail, the terminal
error names the number of layers attempted and embeds the message of
the fourth (last) layer's error, not the first layer's. -/
theorem claim_C5_terminal_error_wraps_last {α : Type} (env : ChainEnv α)
    (e1 e2 : Option JsError) (e3 : JsError) (e4 : Option JsError)
    (h1 : (layer1 env).2 = .error e1) (h2 : (layer2 env).2 = .error e2)
    (h3 : (layer3 env).2 = .error e3) (h4 : (layer4 env).2 = .error e4) :
    analyzeExamPaper env
      = .error ⟨some ("Scan failed after 4 types of fallback. Last error: "
          ++ thrownMessageStr e4), none⟩ := by
  unfold analyzeExamPaper
  rw [h1, h2, h3, h4]
  rfl

/-- A chain environment in which all four layers fail: no provider has
any configured key. -/
def c5env : ChainEnv Nat where
  geminiKeyString := none
  orKeyString := none
  groqKeyString := none
  geminiShuffle1 := []
  geminiShuffle2 := []
  orShuffle := []
  fn1 := fun _ _ => .error ⟨none, none⟩
  fn2 := fun _ _ => .error ⟨none, none⟩
  callGroq := fun _ _ => .error ⟨none, none⟩
  fn4 := fun _ _ => .error ⟨none, none⟩

/-- Witness for C5: with every layer failing, the terminal error embeds
the fourth layer's message (the OpenRouter configuration error), not
the first layer's (the Gemini configuration error). -/
theorem claim_C5_terminal_error_wraps_last_witness :
    analyzeExamPaper c5env
      = .error ⟨some ("Scan failed after 4 types of fallback. Last error: "
          ++ "No API keys available for provider: openrouter"), none⟩ :=
  claim_C5_terminal_error_wraps_last c5env
    (some (noKeysError "gemini")) (some (noKeysError "gemini"))
    ⟨some "No Groq API key available", none⟩ (some (noKeysError "openrouter"))
    rfl rfl rfl rfl

/-- C6 counterexample: with the Groq credential configuration
`"k1, k2"` — a two-key pool under the gateway's parsing — the Groq
layer of the chain does not rotate through the configured keys: both of
its attempts pass the whole unsplit string as the key, and the key
`"k1"` is never attempted.  So not every layer of `analyzeExamPaper`
rotates through its provider's keys via `withProviderRetry`. -/
theorem claim_C6_groq_layer_counterexample :
    getAllKeys (some "k1, k2") = ["k1", "k2"]
    ∧ (analyzeWithGroq (α := Nat) (some "k1, k2")
        (fun _ _ => .error ⟨some "boom", none⟩)).1.map Prod.fst
      = ["k1, k2", "k1, k2"]
    ∧ "k1" ∉ (analyzeWithGroq (α := Nat) (some "k1, k2")
        (fun _ _ => .error ⟨some "boom", none⟩)).1.map Prod.fst := by
  refine ⟨rfl, rfl, ?_⟩
  decide

/-- C6 (amended): layers 1, 2 and 4 of `analyzeExamPaper` are executed
through `withProviderRetry` scoped to their provider and (when the
layer's operation keeps failing) attempt every configured key of that
provider; layer 3 (Groq vision) instead uses the single unsplit Groq
key string directly, making at most two attempts (one per model), all
with that one string. -/
theorem claim_C6_layer_retry_scope {α : Type} (env : ChainEnv α)
    (hp1 : env.geminiShuffle1.Perm (getAllKeys env.geminiKeyString))
    (hp2 : env.geminiShuffle2.Perm (getAllKeys env.geminiKeyString))
    (hp4 : env.orShuffle.Perm (getAllKeys env.orKeyString))
    (hf1 : ∀ k i, ∃ e, env.fn1 k i = .error e)
    (hf2 : ∀ k i, ∃ e, env.fn2 k i = .error e)
    (hf4 : ∀ k i, ∃ e, env.fn4 k i = .error e) :
    (∀ k ∈ getAllKeys env.geminiKeyString, k ∈ attemptKeys (layer1 env).1)
    ∧ (∀ k ∈ getAllKeys env.geminiKeyString, k ∈ attemptKeys (layer2 env).1)
    ∧ (∀ k ∈ getAllKeys env.orKeyString, k ∈ attemptKeys (layer4 env).1)
    ∧ (∀ p ∈ (layer3 env).1, some p.1 = env.groqKeyString)
    ∧ (layer3 env).1.length ≤ 2 := by
  have hgen : ∀ (provider : String) (keyString : Option String) (shuffled : List String)
      (fn : String → Nat → Except JsError α),
      shuffled.Perm (getAllKeys keyString) → (∀ k i, ∃ e, fn k i = .error e) →
      ∀ k ∈ getAllKeys keyString,
        k ∈ attemptKeys (withProviderRetry provider keyString shuffled fn 1).1 := by
    intro provider keyString shuffled fn hp hf k hk
    have hne : getAllKeys keyString ≠ [] := by
      intro h; rw [h] at hk; simp at hk
    rw [withProviderRetry_run provider keyString shuffled fn 1 hne]
    exact runKeys_mem_attempt fn _ 1 (Nat.le_refl 1) hf shuffled 0 none k
      (hp.mem_iff.mpr hk)
  refine ⟨hgen "gemini" _ _ _ hp1 hf1, hgen "gemini" _ _ _ hp2 hf2,
    hgen "openrouter" _ _ _ hp4 hf4, ?_, ?_⟩
  · intro p hp
    rcases hg : env.groqKeyString with _ | apiKey
    · simp only [layer3, analyzeWithGroq, hg] at hp
      simp at hp
    · simp only [layer3, analyzeWithGroq, hg] at hp
      by_cases hk : apiKey = ""
      · simp [hk] at hp
      · rw [if_neg hk] at hp
        rcases h1 : env.callGroq apiKey groqModel1 with e | v
        all_goals rw [h1] at hp
        · rcases h2 : env.callGroq apiKey groqModel2 with e' | v
          all_goals rw [h2] at hp
          all_goals simp at hp
          all_goals rcases hp with rfl | rfl
          all_goals rfl
        · simp at hp
          simp [hp]
  · rcases hg : env.groqKeyString with _ | apiKey
    · simp [layer3, analyzeWithGroq, hg]
    · simp only [layer3, analyzeWithGroq, hg]
      by_cases hk : apiKey = ""
      · simp [hk]
      · rw [if_neg hk]
        rcases h1 : env.callGroq apiKey groqModel1 with e | v
        · rcases h2 : env.callGroq apiKey groqModel2 with e' | v <;> simp
        · simp

/-- An environment for the C6 witness: two Gemini keys, one OpenRouter
key, the Groq config string `"k1, k2"`, and operations that always
fail. -/
def c6env : ChainEnv Nat where
  geminiKeyString := some "g1,g2"
  orKeyString := some "o1"
  groqKeyString := some "k1, k2"
  geminiShuffle1 := ["g2", "g1"]
  geminiShuffle2 := ["g1", "g2"]
  orShuffle := ["o1"]
  fn1 := fun _ _ => .error ⟨some "e1", none⟩
  fn2 := fun _ _ => .error ⟨some "e2", none⟩
  callGroq := fun _ _ => .error ⟨some "e3", none⟩
  fn4 := fun _ _ => .error ⟨some "e4", none⟩

/-- Witness for C6 (amended): in `c6env`, layers 1, 2 and 4 attempt
every configured key of their provider, and every Groq attempt carries
the unsplit key string. -/
theorem claim_C6_layer_retry_scope_witness :
    "g1" ∈ attemptKeys (layer1 c6env).1 ∧ "g2" ∈ attemptKeys (layer1 c6env).1
    ∧ "g1" ∈ attemptKeys (layer2 c6env).1 ∧ "o1" ∈ attemptKeys (layer4 c6env).1
    ∧ (∀ p ∈ (layer3 c6env).1, some p.1 = c6env.groqKeyString)
    ∧ (layer3 c6env).1.length ≤ 2 := by
  obtain ⟨h1, h2, h4, h3, hlen⟩ := claim_C6_layer_retry_scope c6env
    (by rw [show getAllKeys c6env.geminiKeyString = ["g1", "g2"] from rfl]; decide)
    (by rw [show getAllKeys c6env.geminiKeyString = ["g1", "g2"] from rfl]; decide)
    (by rw [show getAllKeys c6env.orKeyString = ["o1"] from rfl]; decide)
    (fun k i => ⟨⟨some "e1", none⟩, rfl⟩)
    (fun k i => ⟨⟨some "e2", none⟩, rfl⟩)
    (fun k i => ⟨⟨some "e4", none⟩, rfl⟩)
  exact ⟨h1 "g1" (by decide), h1 "g2" (by decide), h2 "g1" (by decide),
    h4 "o1" (by decide), h3, hlen⟩

/-- C7: `refineAcademicAnswer` tries the secondary vendor (OpenRouter)
before the primary (Gemini): with at least one OpenRouter key, a
successful OpenRouter run is returned without Gemini ever being
invoked; Gemini is invoked exactly when no OpenRouter key exists or the
OpenRouter run fails, and in those cases the Gemini run's outcome —
including its error — is the caller's outcome. -/
theorem claim_C7_refine_tries_openrouter_first (env : RefineEnv) :
    (∀ v, getAllKeys env.orKeyString ≠ [] → (refineOrRun env).2 = .ok v →
      refineAcademicAnswer env = ([("openrouter", (refineOrRun env).1)], .ok v)
        ∧ ∀ p ∈ (refineAcademicAnswer env).1, p.1 = "openrouter") ∧
    (getAllKeys env.orKeyString = [] →
      refineAcademicAnswer env
        = ([("gemini", (refineGeminiRun env).1)], (refineGeminiRun env).2)) ∧
    (∀ e, getAllKeys env.orKeyString ≠ [] → (refineOrRun env).2 = .error e →
      refineAcademicAnswer env
        = ([("openrouter", (refineOrRun env).1), ("gemini", (refineGeminiRun env).1)],
           (refineGeminiRun env).2)) := by
  refine ⟨?_, ?_, ?_⟩
  · intro v hne hok
    have hlen : 0 < (getAllKeys env.orKeyString).length := List.length_pos.mpr hne
    rcases hor : refineOrRun env with ⟨tr, res⟩
    rw [hor] at hok
    simp only at hok
    subst hok
    constructor
    · unfold refineAcademicAnswer
      rw [if_pos hlen, hor]
    · intro p hp
      unfold refineAcademicAnswer at hp
      rw [if_pos hlen, hor] at hp
      simp at hp
      rw [hp]
  · intro hempty
    unfold refineAcademicAnswer
    rw [if_neg]
    rw [hempty]
    simp
  · intro e hne herr
    have hlen : 0 < (getAllKeys env.orKeyString).length := List.length_pos.mpr hne
    rcases hor : refineOrRun env with ⟨tr, res⟩
    rw [hor] at herr
    simp only at herr
    subst herr
    unfold refineAcademicAnswer
    rw [if_pos hlen, hor]

/-- An environment for the C7 witness: one OpenRouter key whose call
succeeds, one Gemini key whose call also would succeed. -/
def c7env : RefineEnv where
  modelName := "m"
  provider := "gemini"
  orKeyString := some "o1"
  geminiKeyString := some "g1"
  orShuffle := ["o1"]
  geminiShuffle := ["g1"]
  callOpenRouter := fun _ _ _ => .ok "or-answer"
  callGemini := fun _ _ _ => .ok "gm-answer"

/-- Witness for C7: with a configured OpenRouter key and a succeeding
OpenRouter call, the result is the OpenRouter answer and the trace
names only OpenRouter. -/
theorem claim_C7_refine_tries_openrouter_first_witness :
    refineAcademicAnswer c7env = ([("openrouter", (refineOrRun c7env).1)], .ok "or-answer")
      ∧ ∀ p ∈ (refineAcademicAnswer c7env).1, p.1 = "openrouter" :=
  (claim_C7_refine_tries_openrouter_first c7env).1 "or-answer"
    (by rw [show getAllKeys c7env.orKeyString = ["o1"] from rfl]; simp) rfl

/-! ### Lemmas about the streaming key loop -/

/-- The key the loop reads at cursor `idx` is one of the configured
keys. -/
theorem orLoop_key_mem (keys : List String) (idx : Nat) (h : keys ≠ []) :
    keys.getD (idx % keys.length) "" ∈ keys := by
  have hl : 0 < keys.length := List.length_pos.mpr h
  have hm : idx % keys.length < keys.length := Nat.mod_lt _ hl
  rw [List.getD_eq_getElem keys "" hm]
  exact List.getElem_mem hm

/-- The keys attempted by the loop follow the round-robin pattern from
the starting cursor. -/
theorem orLoop_traceKeys (keys : List String) (model : String)
    (raw : String → Except JsError (List String)) :
    ∀ (fuel idx : Nat) (lastError : Option JsError),
      (orLoop keys model raw fuel idx lastError).1.map Prod.fst
        = (List.range (orLoop keys model raw fuel idx lastError).1.length).map
            (fun j => keys.getD ((idx + j) % keys.length) "") := by
  intro fuel
  induction fuel with
  | zero => intro idx lastError; rfl
  | succ f ih =>
    intro idx lastError
    show ((orLoop keys model raw (f + 1) idx lastError).1.map Prod.fst) = _
    unfold orLoop
    rcases hmr : makeRequest model (raw (keys.getD (idx % keys.length) "")) with e | chunks
    · by_cases h401 : e.status == some 401
      · simp only [hmr, h401, if_true]
        have ihx := ih ((idx + 1) % keys.length) (some e)
        simp only [List.map_cons, List.length_cons, ihx, List.range_succ_eq_map,
          List.map_map]
        refine List.cons_eq_cons.mpr ⟨by simp, ?_⟩
        apply List.map_congr_left
        intro j _
        simp only [Function.comp_apply]
        rw [Nat.mod_add_mod]
        have harg : (idx + 1) + j = idx + Nat.succ j := by omega
        rw [harg]
      · simp only [hmr, h401, if_false]
        simp [List.range_succ]
    · simp only [hmr]
      simp [List.range_succ]

/-- The loop performs at most `fuel` attempts. -/
theorem orLoop_length (keys : List String) (model : String)
    (raw : String → Except JsError (List String)) :
    ∀ (fuel idx : Nat) (lastError : Option JsError),
      (orLoop keys model raw fuel idx lastError).1.length ≤ fuel := by
  intro fuel
  induction fuel with
  | zero => intro idx lastError; exact Nat.le_refl 0
  | succ f ih =>
    intro idx lastError
    unfold orLoop
    rcases hmr : makeRequest model (raw (keys.getD (idx % keys.length) "")) with e | chunks
    · by_cases h401 : e.status == some 401
      · simp only [hmr, h401, if_true, List.length_cons]
        exact Nat.succ_le_succ (ih ((idx + 1) % keys.length) (some e))
      · simp [hmr, h401]
    · simp [hmr]

/-- Distinct cursor offsets below the pool size read distinct keys of a
duplicate-free pool. -/
theorem orLoop_pattern_inj (keys : List String) (hnd : keys.Nodup) (idx : Nat) :
    ∀ j₁ j₂, j₁ < keys.length → j₂ < keys.length →
      keys.getD ((idx + j₁) % keys.length) "" = keys.getD ((idx + j₂) % keys.length) "" →
      j₁ = j₂ := by
  intro j₁ j₂ h1 h2 heq
  have hl : 0 < keys.length := by omega
  have hm1 : (idx + j₁) % keys.length < keys.length := Nat.mod_lt _ hl
  have hm2 : (idx + j₂) % keys.length < keys.length := Nat.mod_lt _ hl
  rw [List.getD_eq_getElem keys "" hm1, List.getD_eq_getElem keys "" hm2] at heq
  have hidx : (idx + j₁) % keys.length = (idx + j₂) % keys.length :=
    (hnd.getElem_inj_iff).mp heq
  have hmod : j₁ % keys.length = j₂ % keys.length := by
    have hme : Nat.ModEq keys.length (idx + j₁) (idx + j₂) := hidx
    exact Nat.ModEq.add_left_cancel' idx hme
  rwa [Nat.mod_eq_of_lt h1, Nat.mod_eq_of_lt h2] at hmod

/-- When every key's request fails with a 401, the loop tries `fuel`
keys and ends with the error of its last attempt. -/
theorem orLoop_all401 (keys : List String) (model : String)
    (raw : String → Except JsError (List String)) (hkeys : keys ≠ [])
    (hfail : ∀ k ∈ keys, ∃ e, raw k = .error e ∧ e.status = some 401) :
    ∀ (fuel idx : Nat) (lastError : Option JsError), 1 ≤ fuel →
      ∃ k e, (orLoop keys model raw fuel idx lastError).1.getLast? = some (k, .error e)
        ∧ (orLoop keys model raw fuel idx lastError).2.2 = .error e
        ∧ (orLoop keys model raw fuel idx lastError).1.length = fuel := by
  intro fuel
  induction fuel with
  | zero => intro idx lastError h; omega
  | succ f ih =>
    intro idx lastError _
    obtain ⟨e, he, hst⟩ := hfail _ (orLoop_key_mem keys idx hkeys)
    have hmr : makeRequest model (raw (keys.getD (idx % keys.length) ""))
        = .error e := by
      rw [he]
      simp [makeRequest, hst]
    have h401 : (e.status == some 401) = true := by rw [hst]; rfl
    by_cases hf : f = 0
    · subst hf
      refine ⟨keys.getD (idx % keys.length) "", e, ?_, ?_, ?_⟩
      all_goals unfold orLoop
      all_goals rw [hmr]
      all_goals simp [h401, orLoop]
    · obtain ⟨k', e', hlast, hout, hlen⟩ := ih ((idx + 1) % keys.length) (some e)
        (by omega)
      refine ⟨k', e', ?_, ?_, ?_⟩
      · show (orLoop keys model raw (f + 1) idx lastError).1.getLast? = _
        unfold orLoop
        simp only [hmr, h401, if_true]
        exact List.mem_getLast?_cons (Option.mem_def.mpr hlast)
      · show (orLoop keys model raw (f + 1) idx lastError).2.2 = _
        unfold orLoop
        simp only [hmr, h401, if_true]
        exact hout
      · show (orLoop keys model raw (f + 1) idx lastError).1.length = _
        unfold orLoop
        simp only [hmr, h401, if_true, List.length_cons]
        rw [hlen]

/-- One unfolding step of the key loop. -/
theorem orLoop_succ_eq (keys : List String) (model : String)
    (raw : String → Except JsError (List String)) (fuel idx : Nat)
    (lastError : Option JsError) :
    orLoop keys model raw (fuel + 1) idx lastError
      = match makeRequest model (raw (keys.getD (idx % keys.length) "")) with
        | .ok chunks => ([(keys.getD (idx % keys.length) "", .ok chunks)], idx, .ok chunks)
        | .error e =>
          if e.status == some 401 then
            ((keys.getD (idx % keys.length) "", .error e)
                :: (orLoop keys model raw fuel ((idx + 1) % keys.length) (some e)).1,
              (orLoop keys model raw fuel ((idx + 1) % keys.length) (some e)).2.1,
              (orLoop keys model raw fuel ((idx + 1) % keys.length) (some e)).2.2)
          else ([(keys.getD (idx % keys.length) "", .error e)], idx, .error e) := rfl

/-- C8: in `streamChat`'s OpenRouter path, with a nonempty key pool:
(i) a 404 at stream time becomes a terminal "Model … not found" error,
rethrown with no rotation (cursor unchanged, single attempt); (ii) any
other non-401 error is rethrown unchanged with no rotation; (iii) a 401
rotates the round-robin cursor and retries with the next key; (iv) at
most one attempt is made per configured key; (v) when every key fails
with a 401, the error of the chronologically last attempt is thrown
after each key was tried exactly once. -/
theorem claim_C8_stream_rotation (keys : List String) (startIdx : Nat)
    (model mode : String) (raw : String → Except JsError (List String))
    (hkeys : keys ≠ []) :
    (∀ e, raw (keys.getD (startIdx % keys.length) "") = .error e →
      e.status = some 404 →
      streamChatOpenRouter keys startIdx model raw mode
        = ([(keys.getD (startIdx % keys.length) "", .error (notFoundError model))],
           startIdx, .error (notFoundError model))) ∧
    (∀ e, raw (keys.getD (startIdx % keys.length) "") = .error e →
      e.status ≠ some 401 → e.status ≠ some 404 →
      streamChatOpenRouter keys startIdx model raw mode
        = ([(keys.getD (startIdx % keys.length) "", .error e)], startIdx, .error e)) ∧
    (∀ e, raw (keys.getD (startIdx % keys.length) "") = .error e →
      e.status = some 401 →
      streamChatOpenRouter keys startIdx model raw mode
        = ((keys.getD (startIdx % keys.length) "", .error e)
            :: (orLoop keys model raw (keys.length - 1)
                ((startIdx + 1) % keys.length) (some e)).1,
           (orLoop keys model raw (keys.length - 1)
              ((startIdx + 1) % keys.length) (some e)).2.1,
           (orLoop keys model raw (keys.length - 1)
              ((startIdx + 1) % keys.length) (some e)).2.2)) ∧
    (keys.Nodup →
      ((streamChatOpenRouter keys startIdx model raw mode).1.map Prod.fst).Nodup
      ∧ (streamChatOpenRouter keys startIdx model raw mode).1.length ≤ keys.length) ∧
    ((∀ k ∈ keys, ∃ e, raw k = .error e ∧ e.status = some 401) →
      ∃ k e, (streamChatOpenRouter keys startIdx model raw mode).1.getLast?
          = some (k, .error e)
        ∧ (streamChatOpenRouter keys startIdx model raw mode).2.2 = .error e
        ∧ (streamChatOpenRouter keys startIdx model raw mode).1.length
          = keys.length) := by
  have h0 : ¬keys.length = 0 := by
    intro h; exact hkeys (List.length_eq_zero.mp h)
  have hE : streamChatOpenRouter keys startIdx model raw mode
      = orLoop keys model raw keys.length startIdx none := by
    unfold streamChatOpenRouter
    rw [if_neg h0]
  obtain ⟨n, hn⟩ : ∃ n, keys.length = n + 1 :=
    ⟨keys.length - 1, by omega⟩
  have hsplit : orLoop keys model raw keys.length startIdx none
      = orLoop keys model raw (n + 1) startIdx none := by rw [hn]
  refine ⟨?_, ?_, ?_, ?_, ?_⟩
  · intro e hraw h404
    have hmr : makeRequest model (raw (keys.getD (startIdx % keys.length) ""))
        = .error (notFoundError model) := by
      rw [hraw]
      simp [makeRequest, h404]
    rw [hE, hsplit, orLoop_succ_eq, hmr]
    rfl
  · intro e hraw h401 h404
    have hmr : makeRequest model (raw (keys.getD (startIdx % keys.length) ""))
        = .error e := by
      rw [hraw]
      simp [makeRequest, h404]
    rw [hE, hsplit, orLoop_succ_eq, hmr]
    simp [h401]
  · intro e hraw h401
    have hmr : makeRequest model (raw (keys.getD (startIdx % keys.length) ""))
        = .error e := by
      rw [hraw]
      simp [makeRequest, h401]
    have hfuel : keys.length - 1 = n := by omega
    rw [hE, hsplit, orLoop_succ_eq, hmr, hfuel]
    have h401' : (e.status == some 401) = true := by rw [h401]; rfl
    simp only [h401', if_true]
  · intro hnd
    constructor
    · rw [hE]
      rw [orLoop_traceKeys keys model raw keys.length startIdx none]
      have hm : (orLoop keys model raw keys.length startIdx none).1.length
          ≤ keys.length := orLoop_length keys model raw keys.length startIdx none
      refine List.Nodup.map_on ?_ (List.nodup_range _)
      intro x hx y hy hxy
      rw [List.mem_range] at hx hy
      exact orLoop_pattern_inj keys hnd startIdx x y (by omega) (by omega) hxy
    · rw [hE]
      exact orLoop_length keys model raw keys.length startIdx none
  · intro hfail
    rw [hE]
    exact orLoop_all401 keys model raw hkeys hfail keys.length startIdx none (by omega)

/-- A stream behavior failing with a 401 on every key, with per-key
error messages. -/
def c8raw401 : String → Except JsError (List String) :=
  fun k => .error ⟨some ("401-" ++ k), some 401⟩

/-- A stream behavior failing with a 404 on every key. -/
def c8raw404 : String → Except JsError (List String) :=
  fun _ => .error ⟨some "nf", some 404⟩

/-- Witness for C8: a 404 becomes the terminal "model not found" error
with no rotation; with three keys all failing 401 from cursor 1, each
key is tried once, the attempted keys are pairwise distinct, and the
last attempt's error is thrown. -/
theorem claim_C8_stream_rotation_witness :
    streamChatOpenRouter ["a", "b"] 0 "mod" c8raw404 "pro"
      = ([("a", .error (notFoundError "mod"))], 0, .error (notFoundError "mod"))
    ∧ (∃ k e, (streamChatOpenRouter ["a", "b", "c"] 1 "m" c8raw401 "pro").1.getLast?
          = some (k, .error e)
        ∧ (streamChatOpenRouter ["a", "b", "c"] 1 "m" c8raw401 "pro").2.2 = .error e
        ∧ (streamChatOpenRouter ["a", "b", "c"] 1 "m" c8raw401 "pro").1.length = 3)
    ∧ ((streamChatOpenRouter ["a", "b", "c"] 1 "m" c8raw401 "pro").1.map Prod.fst).Nodup := by
  obtain ⟨h1, _, _, _, _⟩ := claim_C8_stream_rotation ["a", "b"] 0 "mod" "pro" c8raw404
    (by simp)
  obtain ⟨_, _, _, h4, h5⟩ := claim_C8_stream_rotation ["a", "b", "c"] 1 "m" "pro" c8raw401
    (by simp)
  refine ⟨h1 ⟨some "nf", some 404⟩ rfl rfl, ?_, (h4 (by decide)).1⟩
  exact h5 fun k _ => ⟨⟨some ("401-" ++ k), some 401⟩, rfl, rfl⟩

/-- Batching into waves of three and concatenating the per-wave results
is the plain map over the whole list. -/
theorem batches3_map_flatten {β γ : Type} (g : β → γ) :
    ∀ (l : List β), ((batches3 l).map (fun b => b.map g)).flatten = l.map g := by
  intro l
  induction l using batches3.induct with
  | case1 => rfl
  | case2 a => rfl
  | case3 a b => rfl
  | case4 a b c rest ih => simp [batches3, ih]

/-- C9: `startGeneration` returns exactly one result per enabled
question, in the original order; each result depends only on that
question's own processing outcome, a throwing question contributing the
failure placeholder and a succeeding one its value — so one item's
failure never cancels or alters the others. -/
theorem claim_C9_batch_isolation (questions : List ExamQuestion)
    (process : ExamQuestion → Except JsError RefinedQuestion) :
    (startGeneration questions process
      = (questions.filter fun q => q.enabled).map (resolveBatchItem process))
    ∧ ((startGeneration questions process).length
      = (questions.filter fun q => q.enabled).length)
    ∧ (∀ (i : Nat), (startGeneration questions process)[i]?
        = ((questions.filter fun q => q.enabled)[i]?).map (resolveBatchItem process))
    ∧ (∀ (i : Nat) (q : ExamQuestion) (e : JsError),
        (questions.filter fun q => q.enabled)[i]? = some q →
        process q = .error e →
        (startGeneration questions process)[i]? = some (failurePlaceholder q))
    ∧ (∀ (i : Nat) (q : ExamQuestion) (r : RefinedQuestion),
        (questions.filter fun q => q.enabled)[i]? = some q →
        process q = .ok r →
        (startGeneration questions process)[i]? = some r) := by
  have hmain : startGeneration questions process
      = (questions.filter fun q => q.enabled).map (resolveBatchItem process) :=
    batches3_map_flatten (resolveBatchItem process) (questions.filter fun q => q.enabled)
  have hget : ∀ (i : Nat), (startGeneration questions process)[i]?
      = ((questions.filter fun q => q.enabled)[i]?).map (resolveBatchItem process) := by
    intro i
    rw [hmain, List.getElem?_map]
  refine ⟨hmain, by rw [hmain, List.length_map], hget, ?_, ?_⟩
  · intro i q e hq herr
    rw [hget i, hq]
    simp [resolveBatchItem, herr]
  · intro i q r hq hok
    rw [hget i, hq]
    simp [resolveBatchItem, hok]

/-- An enabled question with the given label. -/
def c9q (n : String) : ExamQuestion := ⟨n, "t", 1, true, false⟩

/-- A successful refinement of a question. -/
def c9r (q : ExamQuestion) : RefinedQuestion :=
  ⟨q.label, q.text, q.marks, "ok", [], q.isJustified⟩

/-- A processing behavior that always fails on the question labeled
`"3"` and succeeds on every other question. -/
def c9process : ExamQuestion → Except JsError RefinedQuestion :=
  fun q => if q.label = "3" then .error ⟨some "x", none⟩ else .ok (c9r q)

/-- Five enabled questions. -/
def c9questions : List ExamQuestion :=
  [c9q "1", c9q "2", c9q "3", c9q "4", c9q "5"]

/-- Witness for C9: five tasks with task #3 always failing and a wave
width of 3 give five results of which #3 is the failure placeholder
while its wave siblings and the next wave are unaffected. -/
theorem claim_C9_batch_isolation_witness :
    (startGeneration c9questions c9process).length = 5
    ∧ (startGeneration c9questions c9process)[2]? = some (failurePlaceholder (c9q "3"))
    ∧ (startGeneration c9questions c9process)[1]? = some (c9r (c9q "2"))
    ∧ (startGeneration c9questions c9process)[3]? = some (c9r (c9q "4"))
    ∧ (startGeneration c9questions c9process)[4]? = some (c9r (c9q "5")) := by
  obtain ⟨_, hlen, _, hfail, hok⟩ := claim_C9_batch_isolation c9questions c9process
  refine ⟨?_, ?_, ?_, ?_, ?_⟩
  · rw [hlen]; rfl
  · exact hfail 2 (c9q "3") ⟨some "x", none⟩ rfl rfl
  · exact hok 1 (c9q "2") (c9r (c9q "2")) rfl rfl
  · exact hok 3 (c9q "4") (c9r (c9q "4")) rfl rfl
  · exact hok 4 (c9q "5") (c9r (c9q "5")) rfl rfl

/-- A success outcome of `withProviderRetry` is the value of one of the
operation's invocations. -/
theorem withProviderRetry_ok {α : Type} (provider : String) (keyString : Option String)
    (shuffled : List String) (fn : String → Nat → Except JsError α) (maxR : Nat) (v : α) :
    (withProviderRetry provider keyString shuffled fn maxR).2 = .ok v →
    ∃ k i, fn k i = .ok v := by
  unfold withProviderRetry
  by_cases h : (getAllKeys keyString).length = 0
  · simp [h]
  · simp only [h, if_false]
    intro hok
    obtain ⟨k, _, i, hi⟩ := runKeys_ok fn _ maxR shuffled 0 none v hok
    exact ⟨k, i, hi⟩

/-- C10: `generateChatTitle` never propagates an error: an empty
message list yields `"New Chat"` with no provider invocation; when the
provider call fails for every key and attempt, the caught error yields
`"New Chat"`; and in every case the result is either `"New Chat"` or
the trimmed text of a successful response (`"New Chat"` when that text
is absent or trims to empty). -/
theorem claim_C10_title_never_throws (messages : List (String × String))
    (provider : String) (keyString : Option String) (shuffled : List String)
    (respond : String → Nat → Except JsError (Option String)) :
    (messages = [] →
      generateChatTitle messages provider keyString shuffled respond = ([], "New Chat"))
    ∧ ((∀ k i, ∃ e, respond k i = .error e) →
      (generateChatTitle messages provider keyString shuffled respond).2 = "New Chat")
    ∧ ((generateChatTitle messages provider keyString shuffled respond).2 = "New Chat"
      ∨ ∃ k i t, respond k i = .ok t
        ∧ (generateChatTitle messages provider keyString shuffled respond).2
          = jsOr (match t with | some s => jsTrim s | none => "") "New Chat") := by
  by_cases hmsg : messages.length = 0
  · refine ⟨?_, ?_, ?_⟩
    · intro _
      simp [generateChatTitle, hmsg]
    · intro _
      simp [generateChatTitle, hmsg]
    · left
      simp [generateChatTitle, hmsg]
  · have hne : ¬messages = [] := by
      intro h; subst h; exact hmsg rfl
    refine ⟨fun h => absurd h hne, ?_, ?_⟩
    · intro hfail
      rcases hrun : withProviderRetry provider keyString shuffled
          (fun key i =>
            match respond key i with
            | .ok text =>
              .ok (jsOr (match text with | some t => jsTrim t | none => "") "New Chat")
            | .error e => .error e) 1 with ⟨tr, res⟩
      match res with
      | .ok title =>
        obtain ⟨k, i, hk⟩ := withProviderRetry_ok provider keyString shuffled _ 1 title
          (by rw [hrun])
        obtain ⟨e, he⟩ := hfail k i
        rw [he] at hk
        simp at hk
      | .error e =>
        unfold generateChatTitle
        rw [if_neg hmsg, hrun]
    · rcases hrun : withProviderRetry provider keyString shuffled
          (fun key i =>
            match respond key i with
            | .ok text =>
              .ok (jsOr (match text with | some t => jsTrim t | none => "") "New Chat")
            | .error e => .error e) 1 with ⟨tr, res⟩
      match res with
      | .ok title =>
        right
        obtain ⟨k, i, hk⟩ := withProviderRetry_ok provider keyString shuffled _ 1 title
          (by rw [hrun])
        rcases hrt : respond k i with e | t
        · rw [hrt] at hk
          simp at hk
        · rw [hrt] at hk
          simp only [Except.ok.injEq] at hk
          refine ⟨k, i, t, hrt, ?_⟩
          unfold generateChatTitle
          rw [if_neg hmsg, hrun]
          exact hk.symm
      | .error e =>
        left
        unfold generateChatTitle
        rw [if_neg hmsg, hrun]

/-- A provider behavior that fails on every key and attempt. -/
def c10fail : String → Nat → Except JsError (Option String) :=
  fun _ _ => .error ⟨some "e", none⟩

/-- Witness for C10: an empty message list returns `"New Chat"` with no
invocation, and with every provider attempt failing the caught error
results in `"New Chat"`. -/
theorem claim_C10_title_never_throws_witness :
    generateChatTitle [] "gemini" (some "k") ["k"] c10fail = ([], "New Chat")
    ∧ (generateChatTitle [("user", "hi")] "gemini" (some "k") ["k"] c10fail).2
      = "New Chat" := by
  obtain ⟨h1, _, _⟩ := claim_C10_title_never_throws [] "gemini" (some "k") ["k"] c10fail
  obtain ⟨_, h2, _⟩ := claim_C10_title_never_throws [("user", "hi")] "gemini" (some "k")
    ["k"] c10fail
  exact ⟨h1 rfl, h2 fun k i => ⟨⟨some "e", none⟩, rfl⟩⟩

end AiSolution
